import Mathlib

/-!
# Verification of the EC2 CloudWatch telemetry pipeline

Shallow embedding of the two pipeline scripts of this repository:

* `ec2_cloudwatch_metrics.py` — collection side: parallel CloudWatch metric
  extraction per (instance, metric) pair, schema normalization
  (`restructure_dataframe`), Parquet/S3 upload.
* `s3ToPostgresETL.py` — load side: S3 listing with a lookback window
  (`extract_from_s3`), daily aggregation (`transform_to_daily`), and the
  batched upsert into `ec2_metrics_latest` (`upsert_to_postgres`).

Numeric statistic values are embedded as `ℚ` (the floats of the source carry
exact decimal data here; no claim depends on float rounding), timestamps as
`ℤ` seconds since the UTC epoch, and nullable cells as `Option`.  DataFrames
are embedded as lists of typed rows; pandas row order (sorting) is not
modelled because every property below is about membership, per-key content
and counts, never about row order (the spec itself declares output ordering
unspecified).
-/

namespace ETL

/-! ## Load-side data model (`s3ToPostgresETL.py`)

A row of the Parquet files read back from S3, i.e. the normalized schema the
collection side writes.  `transform_to_daily` first coerces the `timestamp`
column (`pd.to_datetime(..., errors="coerce")` followed by
`dropna(subset=["timestamp"])`): an unparsable timestamp is `none` and the
row is dropped.  All group-key columns and all four statistic columns exist
in this schema (the collector's `restructure_dataframe` guarantees them), so
the `if k in df.columns` / `if col in df.columns` guards of the source are
the identity here. -/
structure RawRow where
  instance_id   : String
  instance_name : String
  instance_type : String
  metric_name   : String
  category      : String
  unit          : String
  az            : String
  platform      : String
  timestamp     : Option ℤ
  stat_average  : Option ℚ
  stat_maximum  : Option ℚ
  stat_minimum  : Option ℚ
  stat_sum      : Option ℚ
deriving DecidableEq

/-- The full `groupby` key of `transform_to_daily` (source lines 149–154):
`instance_id, instance_name, instance_type, metric_name, day_bucket,
category, unit, az, platform`. -/
structure GroupKey where
  instance_id   : String
  instance_name : String
  instance_type : String
  metric_name   : String
  day_bucket    : ℤ
  category      : String
  unit          : String
  az            : String
  platform      : String
deriving DecidableEq

/-- One output row of `transform_to_daily`, i.e. one record handed to
`upsert_to_postgres`: the group key plus the four reduced statistic
columns. -/
structure Aggregate where
  instance_id   : String
  instance_name : String
  instance_type : String
  metric_name   : String
  day_bucket    : ℤ
  category      : String
  unit          : String
  az            : String
  platform      : String
  stat_average  : Option ℚ
  stat_maximum  : Option ℚ
  stat_minimum  : Option ℚ
  stat_sum      : Option ℚ
deriving DecidableEq

/-- `df["day_bucket"] = df["timestamp"].dt.date`: the calendar day of a UTC
timestamp, as days since the epoch (floor division, also for pre-epoch
instants). -/
def dayBucket (ts : ℤ) : ℤ := Int.fdiv ts 86400

/-- The rows surviving `pd.to_datetime(errors="coerce")` +
`dropna(subset=["timestamp"])`, paired with their computed `day_bucket`. -/
def parsedRows (rows : List RawRow) : List (RawRow × ℤ) :=
  rows.filterMap (fun r => r.timestamp.map (fun t => (r, dayBucket t)))

/-- The group key of one parsed row. -/
def groupKeyOf (p : RawRow × ℤ) : GroupKey :=
  { instance_id := p.1.instance_id, instance_name := p.1.instance_name
    instance_type := p.1.instance_type, metric_name := p.1.metric_name
    day_bucket := p.2, category := p.1.category, unit := p.1.unit
    az := p.1.az, platform := p.1.platform }

/-- The group key carried by an output row of the aggregator. -/
def aggKeyOf (a : Aggregate) : GroupKey :=
  { instance_id := a.instance_id, instance_name := a.instance_name
    instance_type := a.instance_type, metric_name := a.metric_name
    day_bucket := a.day_bucket, category := a.category, unit := a.unit
    az := a.az, platform := a.platform }

/-- pandas `agg("mean")`: mean of the non-null values, null when the group
has no non-null value. -/
def aggMean (vs : List (Option ℚ)) : Option ℚ :=
  let p := vs.reduceOption
  if p = [] then none else some (p.sum / p.length)

/-- pandas `agg("max")`: maximum of the non-null values, null when the group
has no non-null value. -/
def aggMax (vs : List (Option ℚ)) : Option ℚ := vs.reduceOption.max?

/-- pandas `agg("min")`: minimum of the non-null values, null when the group
has no non-null value. -/
def aggMin (vs : List (Option ℚ)) : Option ℚ := vs.reduceOption.min?

/-- pandas `agg("sum")`: sum of the non-null values (`0` for a group with no
non-null value — pandas' default `min_count=0`). -/
def aggSum (vs : List (Option ℚ)) : Option ℚ := some vs.reduceOption.sum

/-- The aggregated row for one group key: the fixed reducer of each
statistic column applied to the group's members (source lines 157–170). -/
def buildAgg (parsed : List (RawRow × ℤ)) (k : GroupKey) : Aggregate :=
  let grp := parsed.filter (fun p => groupKeyOf p = k)
  { instance_id := k.instance_id, instance_name := k.instance_name
    instance_type := k.instance_type, metric_name := k.metric_name
    day_bucket := k.day_bucket, category := k.category, unit := k.unit
    az := k.az, platform := k.platform
    stat_average := aggMean (grp.map (fun p => p.1.stat_average))
    stat_maximum := aggMax (grp.map (fun p => p.1.stat_maximum))
    stat_minimum := aggMin (grp.map (fun p => p.1.stat_minimum))
    stat_sum := aggSum (grp.map (fun p => p.1.stat_sum)) }

/-- `transform_to_daily` (source lines 132–182): drop rows with unparsable
timestamps, bucket by calendar day, group by the nine-column key and reduce
each statistic column with its fixed reducer.  One output row per distinct
group key (pandas emits the groups sorted by key; order is irrelevant to
every property proved about this function, so the first-occurrence order of
`dedup` is kept instead). -/
def transform_to_daily (rows : List RawRow) : List Aggregate :=
  let parsed := parsedRows rows
  ((parsed.map groupKeyOf).dedup).map (buildAgg parsed)

/-! ## The warehouse and `upsert_to_postgres`

`ec2_metrics_latest` is embedded as a list of rows.  The table carries the
columns of an `Aggregate` plus the `loaded_at` timestamp; its conflict key —
the unique index behind `ON CONFLICT` — is `(instance_id, metric_name,
day_bucket)`, so the database invariant is: at most one row per conflict
key (`PerKeyUnique` below). -/
structure WRow where
  instance_id   : String
  instance_name : String
  instance_type : String
  metric_name   : String
  day_bucket    : ℤ
  category      : String
  unit          : String
  az            : String
  platform      : String
  stat_average  : Option ℚ
  stat_maximum  : Option ℚ
  stat_minimum  : Option ℚ
  stat_sum      : Option ℚ
  loaded_at     : ℤ
deriving DecidableEq

abbrev Warehouse := List WRow

/-- The conflict key of an incoming aggregate:
`(instance_id, metric_name, day_bucket)` (source line 217). -/
def akey (a : Aggregate) : String × String × ℤ := (a.instance_id, a.metric_name, a.day_bucket)

/-- The conflict key of a warehouse row. -/
def wkey (x : WRow) : String × String × ℤ := (x.instance_id, x.metric_name, x.day_bucket)

/-- The warehouse row written for aggregate `r` at load time `now`.  On
conflict the source overwrites every non-key column with the excluded (new)
value and sets `loaded_at = NOW()` (source lines 209–219); on plain insert
the statement supplies every `Aggregate` column and `loaded_at` falls to the
table default.  The DDL file (`ec2_metrics_schema.sql`) is not part of this
repository; its default is taken to be the load time as well.  No theorem
below depends on the insert-path `loaded_at` value: value-level statements
are made through `stripLoad`, and the C1 counterexample exercises only the
conflict path. -/
def mkWRow (r : Aggregate) (now : ℤ) : WRow :=
  { instance_id := r.instance_id, instance_name := r.instance_name
    instance_type := r.instance_type, metric_name := r.metric_name
    day_bucket := r.day_bucket, category := r.category, unit := r.unit
    az := r.az, platform := r.platform
    stat_average := r.stat_average, stat_maximum := r.stat_maximum
    stat_minimum := r.stat_minimum, stat_sum := r.stat_sum
    loaded_at := now }

/-- A warehouse row with the `loaded_at` column projected away. -/
def stripLoad (x : WRow) : Aggregate :=
  { instance_id := x.instance_id, instance_name := x.instance_name
    instance_type := x.instance_type, metric_name := x.metric_name
    day_bucket := x.day_bucket, category := x.category, unit := x.unit
    az := x.az, platform := x.platform
    stat_average := x.stat_average, stat_maximum := x.stat_maximum
    stat_minimum := x.stat_minimum, stat_sum := x.stat_sum }

/-- The warehouse rows carrying conflict key `k`. -/
def filterK (k : String × String × ℤ) (w : Warehouse) : Warehouse :=
  w.filter (fun x => wkey x = k)

/-- The database invariant behind `ON CONFLICT (instance_id, metric_name,
day_bucket)`: the warehouse holds at most one row per conflict key. -/
def PerKeyUnique (w : Warehouse) : Prop :=
  ∀ k, (filterK k w).length ≤ 1

/-- The merge of one incoming aggregate, i.e. one value-row of the
`INSERT ... ON CONFLICT DO UPDATE` built by `_upsert_batch`: if a row with
the same conflict key exists it is updated in place (every non-key column
overwritten, `loaded_at` refreshed), otherwise a new row is inserted. -/
def upsertRecord (now : ℤ) (w : Warehouse) (r : Aggregate) : Warehouse :=
  if w.any (fun x => wkey x = akey r) then
    w.map (fun x => if wkey x = akey r then mkWRow r now else x)
  else
    w ++ [mkWRow r now]

/-- Merging a list of aggregates in order.  A single multi-row
`INSERT ... ON CONFLICT` statement over rows with pairwise distinct conflict
keys behaves exactly like this row-by-row merge; `NOW()` is constant for the
whole transaction, hence the single `now`.  (PostgreSQL rejects a statement
whose value rows repeat a conflict key; that failure mode is covered by the
injected executor of `upsert_to_postgres` below, not by this success-path
denotation.) -/
def upsertAll (now : ℤ) (w : Warehouse) (rs : List Aggregate) : Warehouse :=
  rs.foldl (upsertRecord now) w

/-- A failure raised while executing one batch (any `psycopg2` /
SQLAlchemy error: transient connection loss, constraint violation, ...). -/
inductive LoadError
  | dbFailure
deriving DecidableEq

/-- `BATCH = 1_000` (source line 202). -/
def BATCH : ℕ := 1000

/-- The batch slices `records[i : i + BATCH]` for
`i in range(0, len(records), BATCH)` (source lines 232–233): slice number
`j` is `records[j*n : j*n + n]`, and there are `⌈len/n⌉` slices. -/
def chunks (n : ℕ) (l : List α) : List (List α) :=
  (List.range ((l.length + n - 1) / n)).map (fun j => (l.drop (j * n)).take n)

/-- Executing the batches in order over the warehouse connection.  The
executor `ex` stands for `conn.execute(upsert)` on one batch: it returns the
new warehouse state or the raised error.  The loop stops at the first
failure (the exception propagates). -/
def processBatches (ex : List Aggregate → Warehouse → Except LoadError Warehouse) :
    List (List Aggregate) → Warehouse → Except LoadError Warehouse
  | [], w => .ok w
  | b :: bs, w =>
    match ex b w with
    | .ok w' => processBatches ex bs w'
    | .error e => .error e

/-- `upsert_to_postgres` (source lines 188–239).  An empty input returns `0`
untouched.  Otherwise the source opens ONE transaction (`with engine.begin()
as conn:`) around the loop over ALL batches: if every batch executes, the
transaction commits and the row count is returned; if any batch raises, the
whole transaction is rolled back — the warehouse reverts to its prior state
— and the exception propagates out of the function.  The pair returned here
is (warehouse state after the call, returned count or raised error). -/
def upsert_to_postgres (ex : List Aggregate → Warehouse → Except LoadError Warehouse)
    (records : List Aggregate) (w : Warehouse) : Warehouse × Except LoadError ℕ :=
  if records = [] then (w, .ok 0)
  else
    match processBatches ex (chunks BATCH records) w with
    | .ok w' => (w', .ok records.length)
    | .error e => (w, .error e)

/-- The executor of a run in which the database accepts every batch: each
batch statement performs the row-by-row merge at transaction time `now`.
This is the success-path denotation of `_upsert_batch`. -/
def okExec (now : ℤ) : List Aggregate → Warehouse → Except LoadError Warehouse :=
  fun batch w => .ok (upsertAll now w batch)

/-! ## Collection side (`ec2_cloudwatch_metrics.py`) -/

/-- One entry of the metric catalog: metric name, statistics to request,
semantic category. -/
structure MetricDef where
  metric   : String
  stats    : List String
  category : String
deriving DecidableEq

/-- `EC2_STANDARD_METRICS` (source lines 82–110), namespace `AWS/EC2`. -/
def EC2_STANDARD_METRICS : List MetricDef := [
  ⟨"CPUUtilization", ["Average", "Maximum", "Minimum"], "CPU"⟩,
  ⟨"CPUCreditUsage", ["Sum", "Maximum", "Minimum"], "CPU"⟩,
  ⟨"CPUCreditBalance", ["Average"], "CPU"⟩,
  ⟨"CPUSurplusCreditBalance", ["Average"], "CPU"⟩,
  ⟨"CPUSurplusCreditsCharged", ["Sum"], "CPU"⟩,
  ⟨"DiskReadBytes", ["Sum", "Average"], "Disk"⟩,
  ⟨"DiskWriteBytes", ["Sum", "Average"], "Disk"⟩,
  ⟨"DiskReadOps", ["Sum", "Average"], "Disk"⟩,
  ⟨"DiskWriteOps", ["Sum", "Average"], "Disk"⟩,
  ⟨"NetworkIn", ["Sum", "Average"], "Network"⟩,
  ⟨"NetworkOut", ["Sum", "Average"], "Network"⟩,
  ⟨"NetworkPacketsIn", ["Sum", "Average"], "Network"⟩,
  ⟨"NetworkPacketsOut", ["Sum", "Average"], "Network"⟩,
  ⟨"StatusCheckFailed", ["Sum"], "StatusCheck"⟩,
  ⟨"StatusCheckFailed_Instance", ["Sum"], "StatusCheck"⟩,
  ⟨"StatusCheckFailed_System", ["Sum"], "StatusCheck"⟩,
  ⟨"EBSReadBytes", ["Sum", "Average"], "EBS"⟩,
  ⟨"EBSWriteBytes", ["Sum", "Average"], "EBS"⟩,
  ⟨"EBSReadOps", ["Sum", "Average"], "EBS"⟩,
  ⟨"EBSWriteOps", ["Sum", "Average"], "EBS"⟩,
  ⟨"EBSIOBalance%", ["Average"], "EBS"⟩,
  ⟨"EBSByteBalance%", ["Average"], "EBS"⟩]

/-- `MEMORY_METRICS` (source lines 117–124), namespace `CWAgent` (or the
configured `memory_namespace`). -/
def MEMORY_METRICS : List MetricDef := [
  ⟨"mem_used_percent", ["Average", "Maximum"], "Memory"⟩,
  ⟨"mem_used", ["Average", "Maximum"], "Memory"⟩,
  ⟨"mem_available", ["Average", "Minimum"], "Memory"⟩,
  ⟨"mem_total", ["Average"], "Memory"⟩,
  ⟨"mem_cached", ["Average"], "Memory"⟩,
  ⟨"mem_buffered", ["Average"], "Memory"⟩]

/-- `stat.startswith("p")` of the source (source lines 206–207): percentile
statistics such as `p95`.  (All statistic names are ASCII, a single leading
character test.) -/
def startsWithP (s : String) : Bool :=
  match s.data with
  | [] => false
  | c :: _ => c = 'p'

/-- `standard = [s for s in stats if not s.startswith("p")]`. -/
def stdStats (stats : List String) : List String := stats.filter (fun s => !startsWithP s)

/-- `extended = [s for s in stats if s.startswith("p")]`. -/
def extStats (stats : List String) : List String := stats.filter startsWithP

/-- `stat.lower()` on the ASCII statistic names of the catalog. -/
def charLower (c : Char) : Char :=
  if 65 ≤ c.toNat ∧ c.toNat ≤ 90 then Char.ofNat (c.toNat + 32) else c

/-- ASCII lowercase of a statistic name. -/
def lowerStr (s : String) : String := ⟨s.data.map charLower⟩

/-- The column name `f"stat_{stat.lower()}"` for one statistic. -/
def statKey (stat : String) : String := "stat_" ++ lowerStr stat

/-- One `get_metric_statistics` request, with the keyword arguments the
source builds (source lines 209–220).  An empty `statistics` /
`extendedStatistics` list stands for the keyword being absent (the source
only sets the key when the list is non-empty, and never passes an empty
list). -/
structure CWRequest where
  nsname             : String
  metricName         : String
  dims               : List (String × String)
  startTime          : ℤ
  endTime            : ℤ
  period             : ℤ
  statistics         : List String
  extendedStatistics : List String
deriving DecidableEq

/-- A datapoint of a CloudWatch response: observation timestamp, unit
(absent ⇒ the source substitutes `"None"`), the per-statistic values and the
`ExtendedStatistics` sub-dictionary. -/
structure RawDatapoint where
  timestamp : ℤ
  unit      : Option String
  values    : List (String × ℚ)
  extValues : List (String × ℚ)
deriving DecidableEq

/-- A failure of the upstream call: authorization denial, throttling, or any
other transport error (the source distinguishes them only for logging). -/
inductive FetchError
  | accessDenied
  | throttled
  | transport
deriving DecidableEq

/-- The telemetry source: what `cw_client.get_metric_statistics` answers for
each request in this run. -/
structure CloudWatch where
  getMetricStatistics : CWRequest → Except FetchError (List RawDatapoint)

/-- The request `fetch_metric_datapoints` builds for one (namespace,
dimensions, metric) task: statistics split into the plain shape
(`Statistics=`) and the percentile shape (`ExtendedStatistics=`). -/
def mkRequest (ns : String) (dims : List (String × String)) (md : MetricDef)
    (t0 t1 p : ℤ) : CWRequest :=
  { nsname := ns, metricName := md.metric, dims := dims
    startTime := t0, endTime := t1, period := p
    statistics := stdStats md.stats, extendedStatistics := extStats md.stats }

/-- The upstream requests one call of `fetch_metric_datapoints` performs:
exactly one `cw_client.get_metric_statistics(**kwargs)` call (source line
223 is the only call site and runs once), carrying both statistic shapes in
its keyword arguments. -/
def fetchRequests (ns : String) (dims : List (String × String)) (md : MetricDef)
    (t0 t1 p : ℤ) : List CWRequest :=
  [mkRequest ns dims md t0 t1 p]

/-- One raw record row built from a datapoint (source lines 233–248), a
loosely-typed dictionary: the fixed identity keys plus one dynamic
`stat_<name>` key per REQUESTED statistic (value `none` when the response
datapoint does not carry that statistic — `dp.get` returns `None`).  The
instance metadata keys are merged in later by `fetch_instance_metrics`;
until then they are empty. -/
structure Record where
  nsname        : String
  instance_id   : String
  metric_name   : String
  category      : String
  timestamp     : ℤ
  unit          : String
  period_sec    : ℤ
  stats         : List (String × Option ℚ)
  instance_name : String
  instance_type : String
  state         : String
  az            : String
  private_ip    : String
  public_ip     : String
  launch_time   : String
  platform      : String
deriving DecidableEq

/-- Build the record for one response datapoint. -/
def dpRecord (ns : String) (dims : List (String × String)) (md : MetricDef)
    (p : ℤ) (dp : RawDatapoint) : Record :=
  { nsname := ns
    instance_id := ((dims.find? (fun d => d.1 = "InstanceId")).map Prod.snd).getD ""
    metric_name := md.metric, category := md.category
    timestamp := dp.timestamp, unit := dp.unit.getD "None", period_sec := p
    stats :=
      (stdStats md.stats).map (fun s => (statKey s, dp.values.lookup s)) ++
      (extStats md.stats).map (fun s => (statKey s, dp.extValues.lookup s))
    instance_name := "", instance_type := "", state := "", az := ""
    private_ip := "", public_ip := "", launch_time := "", platform := "" }

/-- `fetch_metric_datapoints` (source lines 192–250): perform the single
upstream request; ANY raised failure is caught, logged, and converted to the
empty record list for this (namespace, metric, dimensions) task. -/
def fetch_metric_datapoints (cw : CloudWatch) (ns : String)
    (dims : List (String × String)) (md : MetricDef) (t0 t1 p : ℤ) : List Record :=
  match cw.getMetricStatistics (mkRequest ns dims md t0 t1 p) with
  | .error _ => []
  | .ok dps => dps.map (dpRecord ns dims md p)

/-- Discovered EC2 instance metadata (source lines 173–183). -/
structure Ec2Instance where
  instance_id   : String
  instance_name : String
  instance_type : String
  state         : String
  az            : String
  private_ip    : String
  public_ip     : String
  launch_time   : String
  platform      : String
deriving DecidableEq

/-- `rec.update({...})` (source lines 287–297): denormalize the instance
metadata onto a record. -/
def mergeMeta (i : Ec2Instance) (r : Record) : Record :=
  { r with instance_name := i.instance_name, instance_type := i.instance_type
           state := i.state, az := i.az, private_ip := i.private_ip
           public_ip := i.public_ip, launch_time := i.launch_time
           platform := i.platform }

/-- The catalog as (namespace, metric) tasks for one instance: the standard
metrics under `AWS/EC2`, then the memory metrics under the configured
memory namespace (source lines 269–284). -/
def catalogEntries (memNs : String) : List (String × MetricDef) :=
  EC2_STANDARD_METRICS.map (fun md => ("AWS/EC2", md)) ++
  MEMORY_METRICS.map (fun md => (memNs, md))

/-- `fetch_instance_metrics` (source lines 253–304): fetch every cataloged
metric for one instance over `InstanceId` dimensions and merge the instance
metadata onto each record. -/
def fetch_instance_metrics (cw : CloudWatch) (inst : Ec2Instance) (memNs : String)
    (t0 t1 p : ℤ) : List Record :=
  let dims := [("InstanceId", inst.instance_id)]
  (((catalogEntries memNs).flatMap
      (fun nm => fetch_metric_datapoints cw nm.1 dims nm.2 t0 t1 p)).map
    (mergeMeta inst))

/-- The records one (resource, metric) pair contributes to the run: the
pair's fetched records, with the instance metadata merged on. -/
def pairRecords (cw : CloudWatch) (inst : Ec2Instance) (ns : String) (md : MetricDef)
    (t0 t1 p : ℤ) : List Record :=
  (fetch_metric_datapoints cw ns [("InstanceId", inst.instance_id)] md t0 t1 p).map
    (mergeMeta inst)

/-- All records collected across instances (`as_completed` collects each
future's result; arrival order is unspecified and no property below depends
on order, so the instance order is kept). -/
def collectRecords (cw : CloudWatch) (insts : List Ec2Instance) (memNs : String)
    (t0 t1 p : ℤ) : List Record :=
  insts.flatMap (fun i => fetch_instance_metrics cw i memNs t0 t1 p)

/-- The four fixed statistic columns (source lines 384, 405). -/
def statColumns : List String :=
  ["stat_average", "stat_maximum", "stat_minimum", "stat_sum"]

/-- The cell of record `r` in statistic column `c` of the DataFrame: absent
key ⇒ `NaN` (the DataFrame constructor unions the dictionaries' keys), key
present with `None` ⇒ `NaN`; both are `none` here. -/
def statCell (r : Record) (c : String) : Option ℚ := (r.stats.lookup c).join

/-- The dynamic statistic columns of the batch beyond the fixed four (e.g.
`stat_p95` when percentile statistics were requested): the union of the
records' statistic keys, minus the fixed four.  Kept by the source after the
ordered columns (source lines 397–398). -/
def extraColsOf (records : List Record) : List String :=
  ((records.flatMap (fun r => r.stats.map Prod.fst)).dedup).filter
    (fun c => !statColumns.contains c)

/-- A row of the analytics-ready DataFrame `restructure_dataframe` emits:
the documented fixed schema (source lines 357–379) — every one of the four
statistic columns present (possibly null), plus the batch's dynamic
percentile columns at the end. -/
structure NormalizedRow where
  extracted_at  : ℤ
  timestamp     : ℤ
  instance_id   : String
  instance_name : String
  instance_type : String
  state         : String
  az            : String
  private_ip    : String
  public_ip     : String
  platform      : String
  launch_time   : String
  nsname        : String
  category      : String
  metric_name   : String
  unit          : String
  period_sec    : ℤ
  stat_average  : Option ℚ
  stat_maximum  : Option ℚ
  stat_minimum  : Option ℚ
  stat_sum      : Option ℚ
  extras        : List (String × Option ℚ)
deriving DecidableEq

/-- The four statistic cells of an emitted row, as (column, value) pairs. -/
def rowStatCells (n : NormalizedRow) : List (String × Option ℚ) :=
  [("stat_average", n.stat_average), ("stat_maximum", n.stat_maximum),
   ("stat_minimum", n.stat_minimum), ("stat_sum", n.stat_sum)]

/-- Normalize one record: `extracted_at` is the run timestamp inserted by
the source; each fixed statistic column takes the record's cell (null when
the source metric did not return that statistic). -/
def normalizeRow (now : ℤ) (extraCols : List String) (r : Record) : NormalizedRow :=
  { extracted_at := now, timestamp := r.timestamp
    instance_id := r.instance_id, instance_name := r.instance_name
    instance_type := r.instance_type, state := r.state, az := r.az
    private_ip := r.private_ip, public_ip := r.public_ip
    platform := r.platform, launch_time := r.launch_time
    nsname := r.nsname, category := r.category, metric_name := r.metric_name
    unit := r.unit, period_sec := r.period_sec
    stat_average := statCell r "stat_average"
    stat_maximum := statCell r "stat_maximum"
    stat_minimum := statCell r "stat_minimum"
    stat_sum := statCell r "stat_sum"
    extras := extraCols.map (fun c => (c, statCell r c)) }

/-- `restructure_dataframe` (source lines 353–419): build the DataFrame from
the record dictionaries (missing keys become null cells), make sure every
one of the four statistic columns exists (filling with null), insert the run
timestamp, and fix the column order.  The final row sort
(`sort_values(["instance_id", "category", "metric_name", "timestamp"])`)
only permutes rows and is not modelled: every property proved about this
function is order-insensitive. -/
def restructure_dataframe (now : ℤ) (records : List Record) : List NormalizedRow :=
  records.map (normalizeRow now (extraColsOf records))

/-- `extract_all_ec2_metrics` (source lines 310–347): collect the records of
every (instance, metric) task; an empty collection yields the empty
DataFrame, otherwise the restructured DataFrame. -/
def extract_all_ec2_metrics (now : ℤ) (cw : CloudWatch) (insts : List Ec2Instance)
    (memNs : String) (t0 t1 p : ℤ) : List NormalizedRow :=
  let recs := collectRecords cw insts memNs t0 t1 p
  if recs = [] then [] else restructure_dataframe now recs

/-! ## Extraction-window selector (`extract_from_s3`, source lines 75–126)

A listed S3 path is embedded as its `/`-separated segments, each already
split at `=`: `plain` for a segment without `=`, `kv key val` for one with
it (`val = none` when Python's `int()` rejects the value text, making the
whole per-file parse raise). -/
inductive PathSeg
  | plain (s : String)
  | kv (key : String) (val : Option ℤ)
deriving DecidableEq

abbrev S3File := List PathSeg

/-- The `{key: int(value)}` comprehension over a path's segments: `none`
when any `int()` raises; duplicate keys keep the LAST value (dict
overwrite). -/
def parseParts : S3File → Option (List (String × ℤ))
  | [] => some []
  | .plain _ :: rest => parseParts rest
  | .kv _ none :: _ => none
  | .kv k (some v) :: rest => (parseParts rest).map (fun l => (k, v) :: l)

/-- Dictionary access `parts[key]`: the LAST binding wins. -/
def lookupLast (key : String) (l : List (String × ℤ)) : Option ℤ :=
  (l.reverse.find? (fun kv => kv.1 = key)).map Prod.snd

/-- Gregorian leap year. -/
def isLeap (y : ℤ) : Bool := (y % 4 = 0 ∧ y % 100 ≠ 0) ∨ y % 400 = 0

/-- Days in a month of the Gregorian calendar. -/
def daysInMonth (y m : ℤ) : ℤ :=
  if m = 2 then (if isLeap y then 29 else 28)
  else if m = 4 ∨ m = 6 ∨ m = 9 ∨ m = 11 then 30
  else 31

/-- Chronological order of two calendar dates `(year, month, day)`: for
valid dates this is the lexicographic order. -/
def dateLeB (a b : ℤ × ℤ × ℤ) : Bool :=
  a.1 < b.1 ∨ (a.1 = b.1 ∧ (a.2.1 < b.2.1 ∨ (a.2.1 = b.2.1 ∧ a.2.2 ≤ b.2.2)))

/-- Whether `pd.Timestamp(year=y, month=m, day=d)` constructs without
raising: a valid Gregorian date within the nanosecond `Timestamp` range
(min `1677-09-21 12:18`, max `2262-04-11 23:47`, so the first
representable midnight is 1677-09-22 and the last 2262-04-11). -/
def tsValid (y m d : ℤ) : Bool :=
  1 ≤ m ∧ m ≤ 12 ∧ 1 ≤ d ∧ d ≤ daysInMonth y m ∧
  dateLeB (1677, 9, 22) (y, m, d) ∧ dateLeB (y, m, d) (2262, 4, 11)

/-- The partition date of a listed file: `none` when anything in the
`try` block raises — an `int()` failure, a missing `year`/`month`/`day`
key, or an invalid date rejected by `pd.Timestamp` (e.g. `month=13`). -/
def partitionDate (f : S3File) : Option (ℤ × ℤ × ℤ) := do
  let ps ← parseParts f
  let y ← lookupLast "year" ps
  let m ← lookupLast "month" ps
  let d ← lookupLast "day" ps
  if tsValid y m d then some (y, m, d) else none

/-- The lookback filter loop (source lines 102–114): a file is kept when its
partition date is on or after the cutoff, or when its path cannot be parsed
(fail-open `except: filtered.append(f)`). -/
def selectFiles (cutoff : ℤ × ℤ × ℤ) (files : List S3File) : List S3File :=
  files.filter (fun f =>
    match partitionDate f with
    | none => true
    | some d => dateLeB cutoff d)

/-- A failure raised by `extract_from_s3`. -/
inductive ExtractError
  | listFailed
  | noParquetFiles
deriving DecidableEq

/-- `extract_from_s3` (source lines 75–126): list the Parquet files
(`glob`), re-raise a listing failure as `RuntimeError`, raise `ValueError`
when NO Parquet file was found, and otherwise apply the lookback filter when
a lookback is configured.  `cutoff` is the calendar date of
`now - lookback_days` (its derivation from the wall clock is not modelled).
The value returned is the list of files whose contents the source then reads
and concatenates. -/
def extract_from_s3 (glob : Except String (List S3File)) (lookback : Option ℤ)
    (cutoff : ℤ × ℤ × ℤ) : Except ExtractError (List S3File) :=
  match glob with
  | .error _ => .error .listFailed
  | .ok files =>
    if files = [] then .error .noParquetFiles
    else .ok (match lookback with
              | none => files
              | some _ => selectFiles cutoff files)

/-- A failure of the load-side run. -/
inductive EtlError
  | extractError (e : ExtractError)
  | loadError (e : LoadError)
deriving DecidableEq

/-- The load-side `main` (source lines 316–346), extract → transform → load:
a raised extraction error aborts the run before aggregation and upsert —
the warehouse is untouched.  `readFile` stands for reading one Parquet
object into rows; `ex` is the warehouse executor of `upsert_to_postgres`. -/
def run_load_side (glob : Except String (List S3File)) (readFile : S3File → List RawRow)
    (lookback : Option ℤ) (cutoff : ℤ × ℤ × ℤ)
    (ex : List Aggregate → Warehouse → Except LoadError Warehouse)
    (w : Warehouse) : Warehouse × Except EtlError ℕ :=
  match extract_from_s3 glob lookback cutoff with
  | .error e => (w, .error (.extractError e))
  | .ok files =>
    match upsert_to_postgres ex (transform_to_daily (files.flatMap readFile)) w with
    | (w', .ok n) => (w', .ok n)
    | (w', .error e) => (w', .error (.loadError e))

/-! ## Derived notions used by the statements below -/

/-- The warehouse conflict-key triple carried inside a full group key. -/
def tripleOfKey (k : GroupKey) : String × String × ℤ :=
  (k.instance_id, k.metric_name, k.day_bucket)

/-- The LAST aggregate of a list carrying conflict key `k` (the one whose
values win when the list is merged in order). -/
def lastK (rs : List Aggregate) (k : String × String × ℤ) : Option Aggregate :=
  rs.reverse.find? (fun a => akey a = k)

/-- One successful load-side pipeline run over source rows `raw` against
warehouse `w`, committed at transaction time `t`: aggregate to daily rows
and upsert them (`transform_to_daily` + `upsert_to_postgres` with every
batch accepted).  Identical source data yields the identical `raw` for both
of two runs — the run timestamp enters the warehouse only through
`loaded_at`. -/
def pipelineRun (t : ℤ) (raw : List RawRow) (w : Warehouse) : Warehouse :=
  (upsert_to_postgres (okExec t) (transform_to_daily raw) w).1

/-! ## Concrete sample data for the closed instances below -/

/-- A source row with a single `Maximum` observation on day 0. -/
def c1raw : RawRow :=
  { instance_id := "i-0a1", instance_name := "web-1", instance_type := "t3.micro"
    metric_name := "CPUUtilization", category := "CPU", unit := "Percent"
    az := "us-east-1a", platform := "linux", timestamp := some 60
    stat_average := none, stat_maximum := some 7, stat_minimum := none
    stat_sum := none }

/-- A pre-existing warehouse aggregate under the same conflict key as
`c1raw`'s daily row. -/
def c1agg0 : Aggregate :=
  { instance_id := "i-0a1", instance_name := "web-1", instance_type := "t3.micro"
    metric_name := "CPUUtilization", day_bucket := 0, category := "CPU"
    unit := "Percent", az := "us-east-1a", platform := "linux"
    stat_average := none, stat_maximum := some 3, stat_minimum := none
    stat_sum := none }

/-- A warehouse already holding the key, loaded at time 5. -/
def c1w : Warehouse := [mkWRow c1agg0 5]

/-- The conflict key shared by `c1raw`'s daily row and `c1w`'s row. -/
def c1key : String × String × ℤ := ("i-0a1", "CPUUtilization", 0)

/-- The daily aggregate `(r-1, "CPUUtilization", 2024-01-01, avg=20)` of the
spec's upsert example (2024-01-01 is epoch day 19723). -/
def c4agg20 : Aggregate :=
  { instance_id := "r-1", instance_name := "web-1", instance_type := "t3.micro"
    metric_name := "CPUUtilization", day_bucket := 19723, category := "CPU"
    unit := "Percent", az := "us-east-1a", platform := "linux"
    stat_average := some 20, stat_maximum := none, stat_minimum := none
    stat_sum := none }

/-- The same key re-aggregated with `avg=25`. -/
def c4agg25 : Aggregate := { c4agg20 with stat_average := some 25 }

/-- An aggregate used to fill the batches of the failing load run. -/
def c2agg : Aggregate := c4agg20

/-- An executor for which the database accepts the first, full batch and
fails transiently on the (shorter) second batch. -/
def c2ex : List Aggregate → Warehouse → Except LoadError Warehouse :=
  fun b w => if b.length = BATCH then .ok (upsertAll 0 w b) else .error .dbFailure

/-- Three raw rows of one (resource, metric, day) with average values
10, 20, 30 — the spec's daily-mean example. -/
def c6rows : List RawRow :=
  [{ c1raw with timestamp := some 0, stat_average := some 10, stat_maximum := none },
   { c1raw with timestamp := some 60, stat_average := some 20, stat_maximum := none },
   { c1raw with timestamp := some 120, stat_average := some 30, stat_maximum := none }]

/-- The group key of the `c6rows` observations. -/
def c6key : GroupKey :=
  { instance_id := "i-0a1", instance_name := "web-1", instance_type := "t3.micro"
    metric_name := "CPUUtilization", day_bucket := 0, category := "CPU"
    unit := "Percent", az := "us-east-1a", platform := "linux" }

/-- Two raw rows sharing (instance, metric, day) but differing in
availability zone. -/
def c9rows : List RawRow :=
  [{ c1raw with az := "us-east-1a" }, { c1raw with az := "us-east-1b" }]

/-- The first `c9rows` row with its day bucket. -/
def c9p1 : RawRow × ℤ := ({ c1raw with az := "us-east-1a" }, 0)

/-- The second `c9rows` row with its day bucket. -/
def c9p2 : RawRow × ℤ := ({ c1raw with az := "us-east-1b" }, 0)

/-- A record whose source metric returned only an `Average` statistic. -/
def c5rec : Record :=
  { nsname := "AWS/EC2", instance_id := "i-0a1", metric_name := "CPUUtilization"
    category := "CPU", timestamp := 60, unit := "Percent", period_sec := 60
    stats := [("stat_average", some 42)]
    instance_name := "", instance_type := "", state := "", az := ""
    private_ip := "", public_ip := "", launch_time := "", platform := "" }

/-- A discovered instance for the extraction run. -/
def c3inst : Ec2Instance :=
  { instance_id := "i-0abc", instance_name := "web-1", instance_type := "t3.micro"
    state := "running", az := "us-east-1a", private_ip := "10.0.0.1"
    public_ip := "", launch_time := "2024-01-01T00:00:00+00:00"
    platform := "linux" }

/-- A `NetworkIn` response datapoint. -/
def c3dp : RawDatapoint :=
  { timestamp := 600, unit := some "Bytes"
    values := [("Sum", 1024), ("Average", 256)], extValues := [] }

/-- A telemetry source that denies access to `CPUUtilization`, answers
`NetworkIn` with one datapoint, and every other metric with no data. -/
def c3cw : CloudWatch :=
  ⟨fun req =>
    if req.metricName = "CPUUtilization" then .error .accessDenied
    else if req.metricName = "NetworkIn" then .ok [c3dp]
    else .ok []⟩

/-- The `NetworkIn` catalog entry. -/
def c3netIn : MetricDef := ⟨"NetworkIn", ["Sum", "Average"], "Network"⟩

/-- The record the `(c3inst, NetworkIn)` pair contributes. -/
def c3rec : Record :=
  mergeMeta c3inst (dpRecord "AWS/EC2" [("InstanceId", "i-0abc")] c3netIn 60 c3dp)

/-- A partition path with an invalid month segment:
`bucket/pre/year=2024/month=13/day=01/metrics_010101.parquet`. -/
def c7file : S3File :=
  [.plain "bucket", .plain "pre", .kv "year" (some 2024), .kv "month" (some 13),
   .kv "day" (some 1), .plain "metrics_010101.parquet"]

/-- A partition path with a valid date inside the window. -/
def c7good : S3File :=
  [.plain "bucket", .plain "pre", .kv "year" (some 2024), .kv "month" (some 7),
   .kv "day" (some 2), .plain "metrics_020202.parquet"]

/-- A metric spec requesting both a plain aggregate and a percentile. -/
def c8md : MetricDef := ⟨"CPUUtilization", ["Average", "p95"], "CPU"⟩

/-! ## Helper lemmas -/

theorem wkey_mkWRow (r : Aggregate) (now : ℤ) : wkey (mkWRow r now) = akey r := rfl

theorem stripLoad_mkWRow (r : Aggregate) (now : ℤ) : stripLoad (mkWRow r now) = r := rfl

/-- Filtering commutes with a map that neither moves elements into nor out
of the filter and fixes the kept ones. -/
theorem filter_map_congr {α : Type _} (g : α → α) (p : α → Bool) :
    ∀ l : List α, (∀ x ∈ l, p (g x) = p x ∧ (p x = true → g x = x)) →
      (l.map g).filter p = l.filter p := by
  intro l
  induction l with
  | nil => intro _; rfl
  | cons a l ih =>
    intro h
    have ha := h a (List.mem_cons_self a l)
    have hl := fun x hx => h x (List.mem_cons_of_mem a hx)
    by_cases hpa : p a = true
    · simp only [List.map_cons, List.filter_cons, ha.1, hpa, if_pos, ha.2 hpa, ih hl]
    · have hpa' : p a = false := Bool.eq_false_iff.mpr hpa
      simp only [List.map_cons, List.filter_cons, ha.1, hpa', Bool.false_eq_true, if_neg,
        ih hl, reduceIte]

/-- Filtering after a map that replaces exactly the kept elements by the
constant `c` (itself kept) yields one `c` per originally kept element. -/
theorem filter_map_replace {α : Type _} (g : α → α) (p : α → Bool) (c : α) (hc : p c = true) :
    ∀ l : List α, (∀ x ∈ l, (p x = true → g x = c) ∧ (p x = false → g x = x)) →
      (l.map g).filter p = (l.filter p).map (fun _ => c) := by
  intro l
  induction l with
  | nil => intro _; rfl
  | cons a l ih =>
    intro h
    have ha := h a (List.mem_cons_self a l)
    have hl := fun x hx => h x (List.mem_cons_of_mem a hx)
    by_cases hpa : p a = true
    · simp only [List.map_cons, List.filter_cons, ha.1 hpa, hpa, if_pos, hc, ih hl,
        List.map_cons]
    · have hpa' : p a = false := Bool.eq_false_iff.mpr hpa
      simp only [List.map_cons, List.filter_cons, ha.2 hpa', hpa', Bool.false_eq_true,
        if_neg, ih hl, reduceIte]

/-- Merging an aggregate of a DIFFERENT conflict key leaves the rows of key
`k` untouched. -/
theorem filterK_upsertRecord_ne (now : ℤ) (w : Warehouse) (r : Aggregate)
    (k : String × String × ℤ) (h : akey r ≠ k) :
    filterK k (upsertRecord now w r) = filterK k w := by
  unfold upsertRecord filterK
  by_cases hany : w.any (fun x => wkey x = akey r)
  · rw [if_pos hany]
    refine filter_map_congr _ _ w (fun x _ => ?_)
    by_cases hx : wkey x = akey r
    · rw [if_pos hx]
      constructor
      · simp [wkey_mkWRow, hx, h]
      · intro hpx
        exact absurd (by rwa [decide_eq_true_iff] at hpx) (hx ▸ h)
    · rw [if_neg hx]
      exact ⟨rfl, fun _ => rfl⟩
  · rw [if_neg hany, List.filter_append]
    have : (List.filter (fun x => decide (wkey x = k)) [mkWRow r now]) = [] := by
      simp [wkey_mkWRow, h]
    rw [this, List.append_nil]

/-- Merging an aggregate of key `k` into a warehouse holding at most one row
of key `k` leaves exactly the freshly written row under `k`. -/
theorem filterK_upsertRecord_eq (now : ℤ) (w : Warehouse) (r : Aggregate)
    (k : String × String × ℤ) (h : akey r = k)
    (hu : (filterK k w).length ≤ 1) :
    filterK k (upsertRecord now w r) = [mkWRow r now] := by
  unfold upsertRecord filterK
  by_cases hany : w.any (fun x => wkey x = akey r)
  · rw [if_pos hany]
    have hrepl : (w.map (fun x => if wkey x = akey r then mkWRow r now else x)).filter
        (fun x => decide (wkey x = k)) =
        (w.filter (fun x => decide (wkey x = k))).map (fun _ => mkWRow r now) := by
      refine filter_map_replace _ _ _ (by simp [wkey_mkWRow, h]) w (fun x _ => ?_)
      constructor
      · intro hpx
        rw [decide_eq_true_iff] at hpx
        rw [if_pos (h ▸ hpx)]
      · intro hpx
        have hxk : ¬ wkey x = k := by simpa using hpx
        rw [if_neg (h ▸ hxk)]
    rw [hrepl]
    obtain ⟨x₀, hx₀, hkx₀⟩ := List.any_eq_true.mp hany
    have hmem : x₀ ∈ w.filter (fun x => decide (wkey x = k)) := by
      rw [List.mem_filter]
      exact ⟨hx₀, by simpa [h] using hkx₀⟩
    have hlen : (w.filter (fun x => decide (wkey x = k))).length = 1 := by
      have h1 : 1 ≤ (w.filter (fun x => decide (wkey x = k))).length :=
        List.length_pos.mpr (List.ne_nil_of_mem hmem)
      exact le_antisymm (by simpa [filterK] using hu) h1
    obtain ⟨a, ha⟩ := List.length_eq_one.mp hlen
    rw [ha, List.map_cons, List.map_nil]
  · rw [if_neg hany, List.filter_append]
    have h1 : w.filter (fun x => decide (wkey x = k)) = [] := by
      rw [List.filter_eq_nil_iff]
      intro x hx
      have := List.any_eq_true.not.mp hany
      push_neg at this
      have hxr : ¬ wkey x = akey r := by simpa using this x hx
      simp [h ▸ hxr]
    have h2 : (List.filter (fun x => decide (wkey x = k)) [mkWRow r now]) = [mkWRow r now] := by
      simp [wkey_mkWRow, h]
    rw [h1, h2, List.nil_append]

/-- Merging one aggregate preserves the per-key uniqueness invariant. -/
theorem perKeyUnique_upsertRecord (now : ℤ) (w : Warehouse) (r : Aggregate)
    (hu : PerKeyUnique w) : PerKeyUnique (upsertRecord now w r) := by
  intro k
  by_cases h : akey r = k
  · rw [filterK_upsertRecord_eq now w r k h (hu k)]
    exact le_refl 1
  · rw [filterK_upsertRecord_ne now w r k h]
    exact hu k

/-- Merging a list of aggregates preserves the per-key uniqueness
invariant. -/
theorem perKeyUnique_upsertAll (now : ℤ) (rs : List Aggregate) :
    ∀ (w : Warehouse), PerKeyUnique w → PerKeyUnique (upsertAll now w rs) := by
  induction rs with
  | nil => intro w hu; exact hu
  | cons r rs ih =>
    intro w hu
    exact ih (upsertRecord now w r) (perKeyUnique_upsertRecord now w r hu)

/-- After merging the list `rs`, the rows under key `k` are exactly: the row
written for the LAST `rs`-entry of key `k` when there is one, and the prior
rows under `k` otherwise. -/
theorem filterK_upsertAll (now : ℤ) (k : String × String × ℤ) :
    ∀ (rs : List Aggregate) (w : Warehouse), PerKeyUnique w →
      filterK k (upsertAll now w rs) =
        (match lastK rs k with
         | some a => [mkWRow a now]
         | none => filterK k w) := by
  intro rs
  induction rs with
  | nil => intro w _; rfl
  | cons r rs ih =>
    intro w hu
    have step : upsertAll now w (r :: rs) = upsertAll now (upsertRecord now w r) rs := rfl
    rw [step, ih (upsertRecord now w r) (perKeyUnique_upsertRecord now w r hu)]
    have hlast : lastK (r :: rs) k =
        (lastK rs k).or (if akey r = k then some r else none) := by
      simp only [lastK, List.reverse_cons, List.find?_append]
      congr 1
      simp only [List.find?]
      by_cases h : akey r = k
      · simp [h]
      · simp [h]
    cases hrs : lastK rs k with
    | some a => rw [hlast, hrs]; rfl
    | none =>
      rw [hlast, hrs]
      by_cases h : akey r = k
      · simp only [h, if_pos, Option.none_or]
        exact filterK_upsertRecord_eq now w r k h (hu k)
      · simp only [h, if_neg, Option.none_or]
        exact filterK_upsertRecord_ne now w r k h

/-- The first `j` batch slices concatenate to the first `j*n` elements. -/
theorem chunks_prefix_flatten {α : Type _} (n : ℕ) (l : List α) :
    ∀ j : ℕ, ((List.range j).map (fun i => (l.drop (i * n)).take n)).flatten =
      l.take (j * n) := by
  intro j
  induction j with
  | zero => simp
  | succ j ih =>
    rw [List.range_succ, List.map_append, List.flatten_append, ih]
    simp only [List.map_cons, List.map_nil, List.flatten_cons, List.flatten_nil,
      List.append_nil]
    rw [Nat.succ_mul, List.take_add]

/-- Cutting a list into positive-size batches loses and reorders nothing. -/
theorem chunks_flatten {α : Type _} (n : ℕ) (hn : 0 < n) (l : List α) :
    (chunks n l).flatten = l := by
  unfold chunks
  rw [chunks_prefix_flatten]
  apply List.take_of_length_le
  set x := l.length + n - 1 with hx
  have hmod := Nat.div_add_mod x n
  have hlt : x % n < n := Nat.mod_lt _ hn
  set q := x / n with hq
  set r := x % n with hr
  have hnq : n * q ≤ q * n := by rw [Nat.mul_comm]
  have : l.length ≤ n * q := by omega
  omega

/-- Running every batch through the always-successful executor is the
row-by-row merge of the concatenated batches. -/
theorem processBatches_okExec (now : ℤ) :
    ∀ (bs : List (List Aggregate)) (w : Warehouse),
      processBatches (okExec now) bs w = .ok (upsertAll now w bs.flatten) := by
  intro bs
  induction bs with
  | nil => intro w; rfl
  | cons b bs ih =>
    intro w
    simp only [processBatches, okExec, ih, List.flatten_cons]
    show _ = Except.ok (List.foldl (upsertRecord now) w (b ++ bs.flatten))
    rw [List.foldl_append]
    rfl

/-- When the database accepts every batch, `upsert_to_postgres` commits the
row-by-row merge of all records and returns the record count: the batching
is invisible in the final state. -/
theorem upsert_to_postgres_okExec (now : ℤ) (rs : List Aggregate) (w : Warehouse) :
    upsert_to_postgres (okExec now) rs w = (upsertAll now w rs, .ok rs.length) := by
  unfold upsert_to_postgres
  by_cases h : rs = []
  · subst h; rfl
  · rw [if_neg h, processBatches_okExec, chunks_flatten BATCH (by norm_num [BATCH]) rs]

theorem aggKeyOf_buildAgg (parsed : List (RawRow × ℤ)) (k : GroupKey) :
    aggKeyOf (buildAgg parsed k) = k := rfl

theorem akey_buildAgg (parsed : List (RawRow × ℤ)) (k : GroupKey) :
    akey (buildAgg parsed k) = tripleOfKey k := rfl

/-- In a duplicate-free list, filtering for one member keeps exactly it. -/
theorem filter_eq_of_nodup {α : Type _} [DecidableEq α] :
    ∀ (l : List α), l.Nodup → ∀ a ∈ l, l.filter (fun x => x = a) = [a] := by
  intro l
  induction l with
  | nil => intro _ a ha; exact absurd ha (List.not_mem_nil a)
  | cons b l ih =>
    intro hnd a ha
    obtain ⟨hb, hl⟩ := List.nodup_cons.mp hnd
    rcases List.mem_cons.mp ha with rfl | ha'
    · rw [List.filter_cons_of_pos (by simp)]
      have : l.filter (fun x => x = a) = [] := by
        rw [List.filter_eq_nil_iff]
        intro x hx
        simp only [decide_eq_true_iff]
        exact fun hxa => hb (hxa ▸ hx)
      rw [this]
    · rw [List.filter_cons_of_neg (by simp; rintro rfl; exact hb ha')]
      exact ih hl a ha'

/-- The group keys of the aggregator's output are its input's distinct group
keys. -/
theorem transform_map_key (rows : List RawRow) :
    (transform_to_daily rows).map aggKeyOf = ((parsedRows rows).map groupKeyOf).dedup := by
  unfold transform_to_daily
  rw [List.map_map]
  have : aggKeyOf ∘ buildAgg (parsedRows rows) = id := by
    funext k; exact aggKeyOf_buildAgg _ k
  rw [this, List.map_id]

/-- C6: `transform_to_daily` groups the (timestamp-parsable) rows by the
full key (resource id and metadata, metric name, category, unit, calendar
day) and emits, per occupied group key, exactly one row whose statistic
columns are the fixed reducers of the group: mean of `stat_average`, max of
`stat_maximum`, min of `stat_minimum`, sum of `stat_sum`. -/
theorem transform_to_daily_groups_and_reduces (rows : List RawRow) (k : GroupKey)
    (h : ∃ p ∈ parsedRows rows, groupKeyOf p = k) :
    (transform_to_daily rows).filter (fun a => aggKeyOf a = k) =
      [buildAgg (parsedRows rows) k] ∧
    (buildAgg (parsedRows rows) k).stat_average =
      aggMean (((parsedRows rows).filter (fun p => groupKeyOf p = k)).map
        (fun p => p.1.stat_average)) ∧
    (buildAgg (parsedRows rows) k).stat_maximum =
      aggMax (((parsedRows rows).filter (fun p => groupKeyOf p = k)).map
        (fun p => p.1.stat_maximum)) ∧
    (buildAgg (parsedRows rows) k).stat_minimum =
      aggMin (((parsedRows rows).filter (fun p => groupKeyOf p = k)).map
        (fun p => p.1.stat_minimum)) ∧
    (buildAgg (parsedRows rows) k).stat_sum =
      aggSum (((parsedRows rows).filter (fun p => groupKeyOf p = k)).map
        (fun p => p.1.stat_sum)) := by
  refine ⟨?_, rfl, rfl, rfl, rfl⟩
  unfold transform_to_daily
  rw [List.filter_map]
  have hpred : ((fun a => decide (aggKeyOf a = k)) ∘ buildAgg (parsedRows rows)) =
      (fun x => decide (x = k)) := by
    funext x
    simp [Function.comp, aggKeyOf_buildAgg]
  rw [hpred]
  have hk : k ∈ ((parsedRows rows).map groupKeyOf).dedup := by
    rw [List.mem_dedup]
    obtain ⟨p, hp, hpk⟩ := h
    exact List.mem_map.mpr ⟨p, hp, hpk⟩
  rw [filter_eq_of_nodup _ (List.nodup_dedup _) k hk, List.map_cons, List.map_nil]

/-- C9: the aggregator emits at most one row per distinct full group key,
and two rows sharing (instance id, metric name, day) while differing
anywhere else in the full key yield (at least) two distinct output rows
under that (instance id, metric name, day) triple. -/
theorem transform_to_daily_key_granularity :
    (∀ rows : List RawRow, ((transform_to_daily rows).map aggKeyOf).Nodup) ∧
    (∀ (rows : List RawRow) (p₁ p₂ : RawRow × ℤ),
      p₁ ∈ parsedRows rows → p₂ ∈ parsedRows rows →
      groupKeyOf p₁ ≠ groupKeyOf p₂ →
      tripleOfKey (groupKeyOf p₁) = tripleOfKey (groupKeyOf p₂) →
      2 ≤ ((transform_to_daily rows).filter
            (fun a => akey a = tripleOfKey (groupKeyOf p₁))).length) := by
  constructor
  · intro rows
    rw [transform_map_key]
    exact List.nodup_dedup _
  · intro rows p₁ p₂ hp₁ hp₂ hne htriple
    set parsed := parsedRows rows with hparsed
    set L := (transform_to_daily rows).filter
      (fun a => akey a = tripleOfKey (groupKeyOf p₁)) with hL
    have hmem : ∀ p : RawRow × ℤ, p ∈ parsed →
        tripleOfKey (groupKeyOf p) = tripleOfKey (groupKeyOf p₁) →
        buildAgg parsed (groupKeyOf p) ∈ L := by
      intro p hp htr
      rw [hL, List.mem_filter]
      constructor
      · unfold transform_to_daily
        exact List.mem_map.mpr ⟨groupKeyOf p,
          List.mem_dedup.mpr (List.mem_map.mpr ⟨p, hp, rfl⟩), rfl⟩
      · rw [akey_buildAgg, htr]
        simp
    have h₁ : buildAgg parsed (groupKeyOf p₁) ∈ L := hmem p₁ hp₁ rfl
    have h₂ : buildAgg parsed (groupKeyOf p₂) ∈ L := hmem p₂ hp₂ htriple.symm
    have hnee : buildAgg parsed (groupKeyOf p₁) ≠ buildAgg parsed (groupKeyOf p₂) := by
      intro hEq
      apply hne
      calc groupKeyOf p₁ = aggKeyOf (buildAgg parsed (groupKeyOf p₁)) :=
            (aggKeyOf_buildAgg _ _).symm
        _ = aggKeyOf (buildAgg parsed (groupKeyOf p₂)) := by rw [hEq]
        _ = groupKeyOf p₂ := aggKeyOf_buildAgg _ _
    calc 2 ≤ L.toFinset.card := by
          refine Finset.one_lt_card.mpr ⟨_, List.mem_toFinset.mpr h₁, _,
            List.mem_toFinset.mpr h₂, hnee⟩
      _ ≤ L.length := List.toFinset_card_le L

/-- Witness for C6: the spec's example — daily averages 10, 20, 30 of one
(resource, metric) aggregate to a single row with daily mean 20. -/
theorem transform_to_daily_mean_example :
    (transform_to_daily c6rows).filter (fun a => aggKeyOf a = c6key) =
      [buildAgg (parsedRows c6rows) c6key] ∧
    (buildAgg (parsedRows c6rows) c6key).stat_average = some 20 := by
  have h := transform_to_daily_groups_and_reduces c6rows c6key (by decide)
  refine ⟨h.1, ?_⟩
  rw [h.2.1]
  have hlist : ((parsedRows c6rows).filter (fun p => groupKeyOf p = c6key)).map
      (fun p => p.1.stat_average) = [some 10, some 20, some 30] := by decide
  rw [hlist]
  show aggMean [some 10, some 20, some 30] = some 20
  norm_num [aggMean, List.reduceOption_cons_of_some, List.reduceOption_nil]
  exact fun habs => absurd habs (by decide)

/-- Witness for C9: two rows sharing (instance, metric, day) but differing
in availability zone give duplicate-free output keys and two output rows
under the shared (instance id, metric name, day) triple. -/
theorem transform_to_daily_key_granularity_witness :
    ((transform_to_daily c9rows).map aggKeyOf).Nodup ∧
    2 ≤ ((transform_to_daily c9rows).filter
          (fun a => akey a = tripleOfKey (groupKeyOf c9p1))).length :=
  ⟨transform_to_daily_key_granularity.1 c9rows,
   transform_to_daily_key_granularity.2 c9rows c9p1 c9p2 (by decide) (by decide)
     (by decide) (by decide)⟩

/-- C1 (counterexample): re-running the identical pipeline at a later wall
clock does NOT reproduce the identical warehouse state — the conflicting
row's `loaded_at` column is refreshed to the second run's `NOW()`
(`update_cols["loaded_at"] = text("NOW()")`), so at least one column of the
key's row differs between the two runs. -/
theorem pipeline_rerun_not_identical :
    pipelineRun 1 [c1raw] (pipelineRun 0 [c1raw] c1w) ≠ pipelineRun 0 [c1raw] c1w := by
  decide

/-- C1 (amended): running the pipeline twice over identical source data
converges per conflict key — the second run never duplicates rows and
leaves the same final value in every column EXCEPT the last-loaded
timestamp, which is refreshed to the second run's transaction time; with
equal transaction times the states agree exactly. -/
theorem pipeline_rerun_identical_up_to_loaded_at (w : Warehouse) (raw : List RawRow)
    (t₁ t₂ : ℤ) (k : String × String × ℤ) (hu : PerKeyUnique w) :
    (filterK k (pipelineRun t₂ raw (pipelineRun t₁ raw w))).length ≤ 1 ∧
    (filterK k (pipelineRun t₂ raw (pipelineRun t₁ raw w))).map stripLoad =
      (filterK k (pipelineRun t₁ raw w)).map stripLoad ∧
    (t₂ = t₁ → filterK k (pipelineRun t₂ raw (pipelineRun t₁ raw w)) =
      filterK k (pipelineRun t₁ raw w)) := by
  have hrun : ∀ (t : ℤ) (v : Warehouse),
      pipelineRun t raw v = upsertAll t v (transform_to_daily raw) := by
    intro t v
    unfold pipelineRun
    rw [upsert_to_postgres_okExec]
  simp only [hrun]
  have huA := perKeyUnique_upsertAll t₁ (transform_to_daily raw) w hu
  have h2 := filterK_upsertAll t₂ k (transform_to_daily raw)
    (upsertAll t₁ w (transform_to_daily raw)) huA
  have h1 := filterK_upsertAll t₁ k (transform_to_daily raw) w hu
  cases hl : lastK (transform_to_daily raw) k with
  | some a =>
    rw [hl] at h1 h2
    rw [h1, h2]
    exact ⟨by simp, by simp [stripLoad_mkWRow], fun ht => by rw [ht]⟩
  | none =>
    rw [hl] at h1 h2
    rw [h2]
    exact ⟨huA k, rfl, fun _ => rfl⟩

/-- Witness for the amended C1 at the concrete example: the two runs agree
on every column but `loaded_at` for the shared key. -/
theorem pipeline_rerun_identical_up_to_loaded_at_witness :
    (filterK c1key (pipelineRun 1 [c1raw] (pipelineRun 0 [c1raw] c1w))).map stripLoad =
      (filterK c1key (pipelineRun 0 [c1raw] c1w)).map stripLoad :=
  (pipeline_rerun_identical_up_to_loaded_at c1w [c1raw] 0 1 c1key
    (by
      intro k
      have h := List.length_filter_le (fun x => decide (wkey x = k)) c1w
      simpa [filterK, c1w] using h)).2.1

/-- C4: the per-batch merge is keyed on (instance id, metric name, day):
when the key is free a new row is inserted, and on key collision the row is
overwritten — all non-key columns take the new aggregate's values and
`loaded_at` is refreshed — so two same-key upserts leave exactly one row
under the key, carrying the second aggregate's values. -/
theorem upsert_merge_on_conflict_key (w : Warehouse) (r₁ r₂ : Aggregate) (n₁ n₂ : ℤ)
    (hu : PerKeyUnique w) (_hk : akey r₁ = akey r₂) :
    (akey r₁ ∉ w.map wkey → upsertRecord n₁ w r₁ = w ++ [mkWRow r₁ n₁]) ∧
    filterK (akey r₂) (upsertRecord n₂ (upsertRecord n₁ w r₁) r₂) = [mkWRow r₂ n₂] ∧
    PerKeyUnique (upsertRecord n₂ (upsertRecord n₁ w r₁) r₂) := by
  refine ⟨?_, ?_, ?_⟩
  · intro hni
    unfold upsertRecord
    rw [if_neg]
    intro hany
    obtain ⟨x, hx, hkx⟩ := List.any_eq_true.mp hany
    rw [decide_eq_true_iff] at hkx
    exact hni (List.mem_map.mpr ⟨x, hx, hkx⟩)
  · exact filterK_upsertRecord_eq n₂ _ r₂ (akey r₂) rfl
      (perKeyUnique_upsertRecord n₁ w r₁ hu (akey r₂))
  · exact perKeyUnique_upsertRecord _ _ _ (perKeyUnique_upsertRecord _ _ _ hu)

/-- Witness for C4: the spec's example — upserting `avg=20` then `avg=25`
under `(r-1, CPUUtilization, 2024-01-01)` leaves exactly one row, carrying
`avg=25`. -/
theorem upsert_merge_on_conflict_key_witness :
    filterK (akey c4agg25) (upsertRecord 2 (upsertRecord 1 [] c4agg20) c4agg25) =
      [mkWRow c4agg25 2] ∧
    upsertRecord 1 [] c4agg20 = [] ++ [mkWRow c4agg20 1] := by
  have h := upsert_merge_on_conflict_key [] c4agg20 c4agg25 1 2
    (by intro k; simp [filterK]) (by decide)
  exact ⟨h.2.1, h.1 (by decide)⟩

/-- C2: the source wraps EVERY batch in one `engine.begin()` transaction,
so a failure in any batch rolls back the writes of every previously
executed batch as well and the exception aborts the whole call: even when
the first batch executed successfully (reaching state `w₁`), a later
batch's failure leaves the warehouse at its ORIGINAL state `w` and the run
raises — loaded data does NOT grow monotonically across batches. -/
theorem upsert_single_transaction_rolls_back_all
    (ex : List Aggregate → Warehouse → Except LoadError Warehouse)
    (records : List Aggregate) (w w₁ : Warehouse) (b : List Aggregate)
    (bs : List (List Aggregate)) (e : LoadError)
    (hc : chunks BATCH records = b :: bs)
    (h1 : ex b w = .ok w₁)
    (h2 : processBatches ex bs w₁ = .error e) :
    upsert_to_postgres ex records w = (w, .error e) := by
  have hne : records ≠ [] := by
    intro h
    subst h
    have hz : chunks BATCH ([] : List Aggregate) = [] := rfl
    rw [hz] at hc
    exact List.noConfusion hc
  unfold upsert_to_postgres
  rw [if_neg hne, hc]
  have hp : processBatches ex (b :: bs) w = .error e := by
    simp only [processBatches, h1]
    exact h2
  rw [hp]

/-- Witness for C2: two batches (1001 records, `BATCH = 1000`), the
database accepting the first batch and failing on the second: the final
state is the original empty warehouse — batch 1's 1000 merged rows are
gone — and the call raises. -/
theorem upsert_single_transaction_rolls_back_all_witness :
    chunks BATCH (List.replicate 1001 c2agg) = List.replicate 1000 c2agg :: [[c2agg]] ∧
    c2ex (List.replicate 1000 c2agg) [] = .ok (upsertAll 0 [] (List.replicate 1000 c2agg)) ∧
    processBatches c2ex [[c2agg]] (upsertAll 0 [] (List.replicate 1000 c2agg)) =
      .error .dbFailure ∧
    upsert_to_postgres c2ex (List.replicate 1001 c2agg) [] = ([], .error .dbFailure) := by
  have hc : chunks BATCH (List.replicate 1001 c2agg) =
      List.replicate 1000 c2agg :: [[c2agg]] := by
    unfold chunks BATCH
    rw [List.length_replicate]
    have hq : (1001 + 1000 - 1) / 1000 = 2 := by norm_num
    rw [hq]
    have hr : List.range 2 = [0, 1] := by decide
    rw [hr, List.map_cons, List.map_cons, List.map_nil]
    simp only [List.drop_replicate, List.take_replicate]
    have e1 : (1000 ⊓ (1001 - 0 * 1000) : ℕ) = 1000 := by norm_num
    have e2 : (1000 ⊓ (1001 - 1 * 1000) : ℕ) = 1 := by norm_num
    rw [e1, e2, List.replicate_one]
  have h1 : c2ex (List.replicate 1000 c2agg) [] =
      .ok (upsertAll 0 [] (List.replicate 1000 c2agg)) := by
    unfold c2ex
    rw [if_pos (by rw [List.length_replicate]; exact rfl)]
  have h2 : processBatches c2ex [[c2agg]] (upsertAll 0 [] (List.replicate 1000 c2agg)) =
      .error .dbFailure := by
    have hx : c2ex [c2agg] (upsertAll 0 [] (List.replicate 1000 c2agg)) =
        .error .dbFailure := by
      unfold c2ex
      rw [if_neg (by decide)]
    simp only [processBatches, hx]
  exact ⟨hc, h1, h2,
    upsert_single_transaction_rolls_back_all c2ex _ [] _ _ _ _ hc h1 h2⟩

/-- C3: a failed fetch for one (resource, metric) pair — authorization
denial, throttling, transport error — is caught and converted to the empty
result for that pair only; every record of every other (resource, metric)
pair still appears in the extractor's output, and the run completes
normally. -/
theorem extract_fetch_failure_isolation
    (now : ℤ) (cw : CloudWatch) (insts : List Ec2Instance) (memNs : String)
    (t0 t1 p : ℤ) (ns₀ : String) (dims₀ : List (String × String)) (md₀ : MetricDef)
    (e : FetchError)
    (hfail : cw.getMetricStatistics (mkRequest ns₀ dims₀ md₀ t0 t1 p) = .error e) :
    fetch_metric_datapoints cw ns₀ dims₀ md₀ t0 t1 p = [] ∧
    ∀ i ∈ insts, ∀ nm ∈ catalogEntries memNs,
      mkRequest nm.1 [("InstanceId", i.instance_id)] nm.2 t0 t1 p ≠
        mkRequest ns₀ dims₀ md₀ t0 t1 p →
      ∀ r ∈ pairRecords cw i nm.1 nm.2 t0 t1 p,
        normalizeRow now (extraColsOf (collectRecords cw insts memNs t0 t1 p)) r ∈
          extract_all_ec2_metrics now cw insts memNs t0 t1 p := by
  constructor
  · unfold fetch_metric_datapoints
    rw [hfail]
  · intro i hi nm hnm _hne r hr
    have hrf : r ∈ fetch_instance_metrics cw i memNs t0 t1 p := by
      unfold pairRecords at hr
      obtain ⟨r₀, hr₀, hrr⟩ := List.mem_map.mp hr
      unfold fetch_instance_metrics
      exact List.mem_map.mpr ⟨r₀, List.mem_flatMap.mpr ⟨nm, hnm, hr₀⟩, hrr⟩
    have hrc : r ∈ collectRecords cw insts memNs t0 t1 p :=
      List.mem_flatMap.mpr ⟨i, hi, hrf⟩
    simp only [extract_all_ec2_metrics]
    rw [if_neg (List.ne_nil_of_mem hrc)]
    exact List.mem_map.mpr ⟨r, hrc, rfl⟩

/-- Witness for C3: access to `CPUUtilization` is denied for the whole run;
the `(i-0abc, NetworkIn)` pair's record still appears in the run's
output. -/
theorem extract_fetch_failure_isolation_witness :
    c3cw.getMetricStatistics
      (mkRequest "AWS/EC2" [("InstanceId", "i-0abc")]
        ⟨"CPUUtilization", ["Average", "Maximum", "Minimum"], "CPU"⟩ 0 3600 60) =
      .error .accessDenied ∧
    normalizeRow 99 (extraColsOf (collectRecords c3cw [c3inst] "CWAgent" 0 3600 60)) c3rec ∈
      extract_all_ec2_metrics 99 c3cw [c3inst] "CWAgent" 0 3600 60 := by
  refine ⟨rfl, ?_⟩
  exact (extract_fetch_failure_isolation 99 c3cw [c3inst] "CWAgent" 0 3600 60
    "AWS/EC2" [("InstanceId", "i-0abc")]
    ⟨"CPUUtilization", ["Average", "Maximum", "Minimum"], "CPU"⟩ .accessDenied rfl).2
    c3inst (by decide) ("AWS/EC2", c3netIn) (by decide) (by decide) c3rec (by decide)

/-- C5: every row `restructure_dataframe` emits carries the full fixed
statistic-column set — each of the four columns is present in every emitted
batch, holding the record's value when the source returned that statistic
and null otherwise. -/
theorem restructure_fixed_stat_schema (now : ℤ) (records : List Record)
    (r : Record) (hr : r ∈ records) :
    normalizeRow now (extraColsOf records) r ∈ restructure_dataframe now records ∧
    (rowStatCells (normalizeRow now (extraColsOf records) r)).map Prod.fst = statColumns ∧
    ∀ c ∈ statColumns,
      (rowStatCells (normalizeRow now (extraColsOf records) r)).lookup c =
        some (statCell r c) := by
  refine ⟨List.mem_map.mpr ⟨r, hr, rfl⟩, rfl, ?_⟩
  intro c hc
  rw [statColumns, List.mem_cons, List.mem_cons, List.mem_cons, List.mem_cons] at hc
  rcases hc with rfl | rfl | rfl | rfl | hc
  · rfl
  · rfl
  · rfl
  · rfl
  · exact absurd hc (List.not_mem_nil c)

/-- Witness for C5: a record whose metric returned only `Average` — the
emitted row still carries all four statistic columns, the missing three as
null. -/
theorem restructure_fixed_stat_schema_witness :
    normalizeRow 99 (extraColsOf [c5rec]) c5rec ∈ restructure_dataframe 99 [c5rec] ∧
    (normalizeRow 99 (extraColsOf [c5rec]) c5rec).stat_average = some 42 ∧
    (normalizeRow 99 (extraColsOf [c5rec]) c5rec).stat_sum = none :=
  ⟨(restructure_fixed_stat_schema 99 [c5rec] c5rec (by decide)).1, by decide, by decide⟩

/-- C7: the extraction-window selector is fail-open: a listed file whose
partition path does not parse into a valid date (e.g. `month=13`) is still
included in the selection instead of being dropped or raising, and only
files with a parseable partition date older than the cutoff are
excluded. -/
theorem selector_fail_open (files : List S3File) (cutoff : ℤ × ℤ × ℤ)
    (lookback : ℤ) (f : S3File) (hf : f ∈ files) (hne : files ≠ [])
    (hp : partitionDate f = none) :
    extract_from_s3 (.ok files) (some lookback) cutoff =
      .ok (selectFiles cutoff files) ∧
    f ∈ selectFiles cutoff files ∧
    ∀ g ∈ files, g ∉ selectFiles cutoff files →
      ∃ d, partitionDate g = some d ∧ dateLeB cutoff d = false := by
  refine ⟨?_, ?_, ?_⟩
  · have hstep : extract_from_s3 (.ok files) (some lookback) cutoff =
        if files = [] then .error .noParquetFiles
        else .ok (selectFiles cutoff files) := rfl
    rw [hstep, if_neg hne]
  · unfold selectFiles
    rw [List.mem_filter]
    refine ⟨hf, ?_⟩
    rw [hp]
  · intro g hg hgs
    have hpg : ¬ ((match partitionDate g with
        | none => true
        | some d => dateLeB cutoff d) = true) := by
      intro hTrue
      exact hgs (List.mem_filter.mpr ⟨hg, hTrue⟩)
    cases hd : partitionDate g with
    | none =>
      rw [hd] at hpg
      exact absurd rfl hpg
    | some d =>
      rw [hd] at hpg
      exact ⟨d, rfl, Bool.eq_false_iff.mpr hpg⟩

/-- Witness for C7: the spec's example — `month=13` does not parse; the
file is still selected by the window filter. -/
theorem selector_fail_open_witness :
    partitionDate c7file = none ∧
    c7file ∈ selectFiles (2024, 6, 1) [c7file, c7good] ∧
    extract_from_s3 (.ok [c7file, c7good]) (some 90) (2024, 6, 1) =
      .ok (selectFiles (2024, 6, 1) [c7file, c7good]) := by
  have h := selector_fail_open [c7file, c7good] (2024, 6, 1) 90 c7file
    (by decide) (by decide) (by decide)
  exact ⟨by decide, h.2.1, h.1⟩

/-- C8 (counterexample): for a spec requesting both a plain aggregate and a
percentile statistic, `fetch_metric_datapoints` performs ONE upstream
request — carrying both `Statistics=` and `ExtendedStatistics=` keyword
shapes — not two requests, one per shape. -/
theorem fetch_not_dispatched_as_two :
    stdStats c8md.stats ≠ [] ∧ extStats c8md.stats ≠ [] ∧
    (fetchRequests "AWS/EC2" [("InstanceId", "i-0abc")] c8md 0 3600 60).length = 1 ∧
    (fetchRequests "AWS/EC2" [("InstanceId", "i-0abc")] c8md 0 3600 60).length ≠ 2 := by
  decide

/-- C8 (amended): the requested statistics ARE split into the two request
shapes — plain names into `Statistics`, percentile names into
`ExtendedStatistics` — but the fetch for the (resource, metric) pair is
dispatched as a SINGLE upstream request carrying both shapes at once. -/
theorem fetch_single_request_both_shapes (ns : String) (dims : List (String × String))
    (md : MetricDef) (t0 t1 p : ℤ)
    (_h1 : stdStats md.stats ≠ []) (_h2 : extStats md.stats ≠ []) :
    fetchRequests ns dims md t0 t1 p = [mkRequest ns dims md t0 t1 p] ∧
    (mkRequest ns dims md t0 t1 p).statistics = stdStats md.stats ∧
    (mkRequest ns dims md t0 t1 p).extendedStatistics = extStats md.stats ∧
    (fetchRequests ns dims md t0 t1 p).length = 1 :=
  ⟨rfl, rfl, rfl, rfl⟩

/-- Witness for the amended C8 at the mixed spec
`CPUUtilization: ["Average", "p95"]`. -/
theorem fetch_single_request_both_shapes_witness :
    fetchRequests "AWS/EC2" [("InstanceId", "i-0abc")] c8md 0 3600 60 =
      [mkRequest "AWS/EC2" [("InstanceId", "i-0abc")] c8md 0 3600 60] ∧
    (mkRequest "AWS/EC2" [("InstanceId", "i-0abc")] c8md 0 3600 60).statistics =
      ["Average"] ∧
    (mkRequest "AWS/EC2" [("InstanceId", "i-0abc")] c8md 0 3600 60).extendedStatistics =
      ["p95"] := by
  have h := fetch_single_request_both_shapes "AWS/EC2" [("InstanceId", "i-0abc")]
    c8md 0 3600 60 (by decide) (by decide)
  exact ⟨h.1, by decide, by decide⟩

/-- C10: an object-storage listing yielding no Parquet files makes the
load-side run raise (`ValueError`) and abort before aggregation and upsert
are attempted: the warehouse is untouched and the run reports the
extraction error. -/
theorem empty_listing_aborts_run (readFile : S3File → List RawRow)
    (lookback : Option ℤ) (cutoff : ℤ × ℤ × ℤ)
    (ex : List Aggregate → Warehouse → Except LoadError Warehouse)
    (w : Warehouse) :
    run_load_side (.ok []) readFile lookback cutoff ex w =
      (w, .error (.extractError .noParquetFiles)) := rfl

end ETL
